import Mathlib

/-!
Verification of the llm-skill agent orchestrator against its design
specification.  The Python source is shallowly embedded: pure fragments
become Lean functions, effectful fragments become explicit state passing,
and external collaborators (the LLM stream, the OS process runner, the
pandas file readers) become oracle parameters.  Every definition is
translated from the corresponding source function, named after it where
Lean allows.
-/

/-! ## CLI callback (src/cli/callbacks.py)

`CLICallback.request_approval` displays the command and asks questionary
for a selection whose value is the string "approve" or "reject"; an
interactive cancellation makes `.ask()` return `None`.  The Python
expression `decision == "approve"` is `False` for `None` and for any
string other than `"approve"`.  We model the questionary outcome as
`Option String` (`none` = cancelled). -/

def requestApproval (decision : Option String) : Bool :=
  match decision with
  | some s => s == "approve"
  | none => false

/-- Claim C1: `request_approval` returns `true` iff the selected decision
value is exactly `"approve"`; `None` (interactive cancellation) and every
other value yield `false` (fail-closed). -/
theorem request_approval_iff_approve (d : Option String) :
    requestApproval d = true ↔ d = some "approve" := by
  cases d <;> simp [requestApproval]

/-! ## Conversation metadata store (src/store/conversation_store.py)

The `conversations` table (src/store/database.py) has columns
`thread_id, user_id, title, created_at, updated_at`, all strings.
`update_title` runs `UPDATE conversations SET title=:t, updated_at=now()
WHERE thread_id=:tid`; `touch` sets only `updated_at` under the same
`WHERE`.  A SQL `UPDATE` rewrites the named columns of every matching row
and leaves all other columns and rows untouched, which we model as a
row-wise map over the table. -/

structure ConvRow where
  thread_id : String
  user_id : String
  title : String
  created_at : String
  updated_at : String
deriving Repr, DecidableEq

def updateTitle (tid title now : String) (tbl : List ConvRow) : List ConvRow :=
  tbl.map fun r =>
    if r.thread_id = tid then { r with title := title, updated_at := now } else r

def touch (tid now : String) (tbl : List ConvRow) : List ConvRow :=
  tbl.map fun r =>
    if r.thread_id = tid then { r with updated_at := now } else r

/-- Claim C10: `update_title` changes only `title` and `updated_at` of rows
whose `thread_id` matches, `touch` changes only `updated_at` of such rows,
and every non-matching row (hence every column of every other row) is
returned unchanged, with the table length and row order preserved. -/
theorem update_title_touch_frame (tbl : List ConvRow) (tid title now now₂ : String)
    (i : Nat) (r ru rt : ConvRow)
    (hr : tbl[i]? = some r)
    (hu : (updateTitle tid title now tbl)[i]? = some ru)
    (ht : (touch tid now₂ tbl)[i]? = some rt) :
    (updateTitle tid title now tbl).length = tbl.length ∧
    (touch tid now₂ tbl).length = tbl.length ∧
    ru.thread_id = r.thread_id ∧ ru.user_id = r.user_id ∧
    ru.created_at = r.created_at ∧
    rt.thread_id = r.thread_id ∧ rt.user_id = r.user_id ∧
    rt.created_at = r.created_at ∧ rt.title = r.title ∧
    (r.thread_id = tid → ru.title = title ∧ ru.updated_at = now ∧
      rt.updated_at = now₂) ∧
    (r.thread_id ≠ tid → ru = r ∧ rt = r) := by
  unfold updateTitle touch at *
  rw [List.getElem?_map, hr] at hu ht
  simp only [Option.map_some', Option.some.injEq] at hu ht
  subst hu ht
  refine ⟨List.length_map _ _, List.length_map _ _, ?_⟩
  by_cases h : r.thread_id = tid <;> simp [h]

/-- Claim C10 witness: the frame theorem applied to a concrete two-row
table at the matching row. -/
theorem update_title_touch_frame_witness :
    let r1 : ConvRow := ⟨"t1", "alice", "old", "c1", "u1"⟩
    let ru : ConvRow := ⟨"t1", "alice", "new", "c1", "n1"⟩
    ru.thread_id = r1.thread_id ∧ ru.user_id = r1.user_id ∧
    ru.created_at = r1.created_at := by
  intro r1 ru
  have h := update_title_touch_frame [r1, ⟨"t2", "bob", "other", "c2", "u2"⟩]
    "t1" "new" "n1" "n2" 0 r1 ru
    ⟨"t1", "alice", "old", "c1", "n2"⟩ (by decide) (by decide) (by decide)
  exact ⟨h.2.2.1, h.2.2.2.1, h.2.2.2.2.1⟩

/-! ## Skill catalog (src/agent/middleware/skill.py)

`SkillManager` holds `self.skills : Dict[str, Path]` mapping a skill id
(directory name) to its discovered `SKILL.md` path; we model it as an
association list from id to the skill folder (the path's parent), and the
filesystem as an association list from full path to file content.
`load_skill` looks the id up, joins the folder with the requested file
name, reads it, and strips the YAML frontmatter only when the requested
file name is exactly `"SKILL.md"`. -/

def isPySpace (c : Char) : Bool :=
  c = ' ' || c = '\t' || c = '\n' || c = '\r' || c = '\x0b' || c = '\x0c'

/-- Suffix of `run` strictly after its last newline (used for the greedy
backtracking of a trailing regex fragment matching whitespace then a
newline: the maximal whitespace run is consumed up to its last newline). -/
def afterLastNewline (run : List Char) : List Char :=
  (run.reverse.takeWhile (fun c => c ≠ '\n')).reverse

/-- Match the regex fragment of three dashes, then whitespace, then a
newline at the head of `cs`, greedily (nothing follows it in the pattern,
so the whitespace consumes through the last newline of its maximal run);
returns the remainder on success. -/
def matchDashesWsNl (cs : List Char) : Option (List Char) :=
  match cs with
  | '-' :: '-' :: '-' :: rest =>
    let run := rest.takeWhile isPySpace
    let tail := rest.dropWhile isPySpace
    if run.contains '\n' then some (afterLastNewline run ++ tail) else none
  | _ => none

/-- Lazy scan for the frontmatter group: the group of the regex is any
minimal run of characters ending in a newline such that the closing dash
line follows; returns the remainder after the closing dash line. -/
def findClose : List Char → Option (List Char)
  | [] => none
  | c :: cs =>
    if c = '\n' then
      match matchDashesWsNl cs with
      | some rest => some rest
      | none => findClose cs
    else findClose cs

/-- Candidate group-start positions for the opening dash line: the regex
engine consumes three dashes, then whitespace ending in a newline, trying
the longest whitespace prefix first and backtracking to earlier newlines
of the run on failure.  Candidates are ordered last newline first. -/
def openingStarts (run tail : List Char) : List (List Char) :=
  (List.range run.length).reverse.filterMap fun i =>
    if run[i]? = some '\n' then some (run.drop (i + 1) ++ tail) else none

/-- Model of the Python frontmatter regex (anchored match, DOTALL): an
opening line of three dashes plus whitespace ending in a newline, a lazy
body ending in a newline, and a closing line of the same dash shape.
Returns the content remaining after the whole match, or `none` when the
content does not start with a frontmatter block. -/
def matchFrontmatter (cs : List Char) : Option (List Char) :=
  match cs with
  | '-' :: '-' :: '-' :: rest =>
    let run := rest.takeWhile isPySpace
    let tail := rest.dropWhile isPySpace
    (openingStarts run tail).findSome? findClose
  | _ => none

def stripFrontmatter (content : String) : String :=
  match matchFrontmatter content.data with
  | some rest => String.mk rest
  | none => content

/-- Python string join with the separator of `", ".join(...)`. -/
def joinComma : List String → String
  | [] => ""
  | [x] => x
  | x :: y :: ys => x ++ ", " ++ joinComma (y :: ys)

/-- Python string comparison: lexicographic on code points. -/
def lexLe : List Char → List Char → Bool
  | [], _ => true
  | _ :: _, [] => false
  | a :: as, b :: bs =>
    if a.toNat < b.toNat then true
    else if b.toNat < a.toNat then false
    else lexLe as bs

def strLe (a b : String) : Bool := lexLe a.data b.data

def insertSorted (x : String) : List String → List String
  | [] => [x]
  | y :: ys => if strLe x y then x :: y :: ys else y :: insertSorted x ys

/-- Model of Python `sorted` on the catalog's key strings. -/
def sortStrings : List String → List String
  | [] => []
  | x :: xs => insertSorted x (sortStrings xs)

/-- `SkillManager.load_skill`, over the catalog `skills` (id to folder)
and the filesystem `fs` (path to content).  The unreadable-file exception
branch of the source is subsumed by the lookup returning `none`. -/
def loadSkill (skills : List (String × String)) (fs : List (String × String))
    (skill_id file : String) : String :=
  match skills.lookup skill_id with
  | none =>
    "Error: Skill \x27" ++ skill_id ++ "\x27 not found. Available skills: " ++
      joinComma (sortStrings (skills.map Prod.fst))
  | some folder =>
    match fs.lookup (folder ++ "/" ++ file) with
    | none =>
      "Error: File \x27" ++ file ++ "\x27 not found in skill \x27" ++ skill_id ++ "\x27"
    | some content =>
      if file = "SKILL.md" then stripFrontmatter content else content

theorem mem_insertSorted {y x : String} : ∀ {l : List String},
    y ∈ insertSorted x l ↔ y = x ∨ y ∈ l := by
  intro l
  induction l with
  | nil => simp [insertSorted]
  | cons z zs ih =>
    by_cases h : strLe x z = true
    · simp [insertSorted, h]
    · simp only [insertSorted, if_neg h, List.mem_cons, ih]
      tauto

theorem mem_sortStrings {y : String} : ∀ {l : List String},
    y ∈ sortStrings l ↔ y ∈ l := by
  intro l
  induction l with
  | nil => simp [sortStrings]
  | cons z zs ih => simp [sortStrings, mem_insertSorted, ih]

theorem mem_infix_joinComma {x : String} : ∀ {l : List String}, x ∈ l →
    List.IsInfix x.data (joinComma l).data := by
  intro l
  induction l with
  | nil => intro h; cases h
  | cons z zs ih =>
    intro h
    cases h with
    | head =>
      cases zs with
      | nil => exact ⟨[], [], by simp [joinComma]⟩
      | cons w ws =>
        refine ⟨[], (", " ++ joinComma (w :: ws)).data, ?_⟩
        simp [joinComma, String.data_append]
    | tail _ hm =>
      cases zs with
      | nil => cases hm
      | cons w ws =>
        obtain ⟨s, t, hst⟩ := ih hm
        refine ⟨(z ++ ", ").data ++ s, t, ?_⟩
        simp [joinComma, String.data_append, ← hst]

/-- Claim C8: for a skill id absent from the catalog, `load_skill` returns
(never raises) an error text, and that text enumerates every known skill
id (each id occurs in the returned string). -/
theorem load_skill_unknown_id (skills fs : List (String × String))
    (skill_id file : String) (h : skills.lookup skill_id = none) :
    loadSkill skills fs skill_id file =
      "Error: Skill \x27" ++ skill_id ++ "\x27 not found. Available skills: " ++
        joinComma (sortStrings (skills.map Prod.fst)) ∧
    ∀ k ∈ skills.map Prod.fst,
      List.IsInfix k.data (loadSkill skills fs skill_id file).data := by
  have he : loadSkill skills fs skill_id file =
      "Error: Skill \x27" ++ skill_id ++ "\x27 not found. Available skills: " ++
        joinComma (sortStrings (skills.map Prod.fst)) := by
    unfold loadSkill
    rw [h]
  refine ⟨he, fun k hk => ?_⟩
  rw [he]
  obtain ⟨s, t, hst⟩ := mem_infix_joinComma (mem_sortStrings.mpr hk)
  exact ⟨("Error: Skill \x27" ++ skill_id ++
      "\x27 not found. Available skills: ").data ++ s, t,
    by simp [String.data_append, ← hst]⟩

/-- Claim C8 witness: a concrete two-skill catalog queried with an unknown
id yields the error text listing both ids. -/
theorem load_skill_unknown_id_witness :
    loadSkill [("beta", "s/beta"), ("alpha", "s/alpha")] [] "zzz" "SKILL.md" =
      "Error: Skill \x27zzz\x27 not found. Available skills: alpha, beta" := by
  have h := load_skill_unknown_id [("beta", "s/beta"), ("alpha", "s/alpha")] []
    "zzz" "SKILL.md" (by decide)
  rw [h.1]
  decide

/-- Claim C9: when the requested file exists, `load_skill` strips the YAML
frontmatter exactly when the `file` argument is the literal string
`"SKILL.md"`; any other requested name returns the stored content
verbatim, frontmatter included if present. -/
theorem load_skill_strip_only_skill_md (skills fs : List (String × String))
    (skill_id folder file content : String)
    (hs : skills.lookup skill_id = some folder)
    (hf : fs.lookup (folder ++ "/" ++ file) = some content) :
    loadSkill skills fs skill_id file =
      (if file = "SKILL.md" then stripFrontmatter content else content) ∧
    (file ≠ "SKILL.md" → loadSkill skills fs skill_id file = content) := by
  have he : loadSkill skills fs skill_id file =
      (if file = "SKILL.md" then stripFrontmatter content else content) := by
    simp only [loadSkill, hs, hf]
  exact ⟨he, fun hne => by rw [he, if_neg hne]⟩

/-- Claim C9 witness: the same frontmattered content is returned verbatim
under the name `"notes.md"` but stripped under the name `"SKILL.md"`. -/
theorem load_skill_strip_only_skill_md_witness :
    loadSkill [("alpha", "s/alpha")]
        [("s/alpha/notes.md", "---\nname: a\n---\nbody\n")]
        "alpha" "notes.md" = "---\nname: a\n---\nbody\n" ∧
    loadSkill [("alpha", "s/alpha")]
        [("s/alpha/SKILL.md", "---\nname: a\n---\nbody\n")]
        "alpha" "SKILL.md" = "body\n" := by
  constructor
  · exact (load_skill_strip_only_skill_md [("alpha", "s/alpha")]
      [("s/alpha/notes.md", "---\nname: a\n---\nbody\n")] "alpha" "s/alpha"
      "notes.md" "---\nname: a\n---\nbody\n" (by decide) (by decide)).2 (by decide)
  · have h := (load_skill_strip_only_skill_md [("alpha", "s/alpha")]
      [("s/alpha/SKILL.md", "---\nname: a\n---\nbody\n")] "alpha" "s/alpha"
      "SKILL.md" "---\nname: a\n---\nbody\n" (by decide) (by decide)).1
    rw [h]
    decide

/-! ## Script runner (src/agent/middleware/bash.py and the run_script tool
of src/agent/subagent/data_analysis.py)

The child process is an external collaborator: an `ExecOutcome` oracle
says how `subprocess.run` ended for a given invocation (completed with an
exit code and captured streams, timed out, or raised some other
exception).  The `bash` tool is pure string formatting over the outcome;
`run_script` additionally threads state: the mkstemp counter (the OS
guarantee of unique names), the filesystem, and the closure-captured
`temp_files` tracking list. -/

inductive ExecOutcome where
  | completed (returncode : Int) (stdout stderr : String)
  | timedOut
  | failed (msg : String)
deriving Repr, DecidableEq

/-- The `bash` tool body (src/agent/middleware/bash.py lines 57-78). -/
def bashToolResult (timeout : Nat) (oc : ExecOutcome) : String :=
  match oc with
  | .completed rc out err =>
    if rc ≠ 0 then
      "Command failed with exit code " ++ toString rc ++ "\nError: " ++
        (if err ≠ "" then err else out)
    else if out ≠ "" then out else "Command executed successfully (no output)"
  | .timedOut =>
    "Error: Command execution timed out (" ++ toString timeout ++ " second limit)"
  | .failed msg => "Error executing command: " ++ msg

structure ScriptState where
  counter : Nat
  fs : List (String × String)
  temps : List String
deriving Repr, DecidableEq

/-- Model of `tempfile.mkstemp(suffix=".py", prefix="analysis_")`: a fresh
path derived from a counter. -/
def mkstempPath (n : Nat) : String := "/tmp/analysis_" ++ toString n ++ ".py"

/-- The `run_script` tool body (src/agent/subagent/data_analysis.py lines
119-143): write the script to a fresh temp file, append the path to the
tracking list, run it; on exit code 0 unlink the file, drop it from the
tracking list and return stdout (or the no-output sentinel); on non-zero
exit, timeout, or any other exception keep the file and report. -/
def runScript (timeout : Nat) (exec : String → ExecOutcome) (st : ScriptState)
    (script : String) : String × ScriptState :=
  let path := mkstempPath st.counter
  let st1 : ScriptState :=
    ⟨st.counter + 1, st.fs ++ [(path, script)], st.temps ++ [path]⟩
  match exec path with
  | .completed rc out err =>
    if rc ≠ 0 then ("ERROR in " ++ path ++ "\n" ++ err, st1)
    else
      (if out ≠ "" then out else "Success (no output)",
        ⟨st1.counter, st1.fs.eraseP (fun p => p.1 == path), st1.temps.erase path⟩)
  | .timedOut =>
    ("TIMEOUT in " ++ path ++ " - exceeded " ++ toString timeout ++ "s", st1)
  | .failed msg => ("ERROR in " ++ path ++ "\n" ++ msg, st1)

/-- Claim C5: `run_script` writes the script body to the fresh uniquely
named temp file; on zero exit the file is deleted and removed from the
tracking list; on non-zero exit or timeout the file is retained on disk
and in the tracking list and the result string contains its path. -/
theorem run_script_artifact (timeout : Nat) (exec : String → ExecOutcome)
    (st : ScriptState) (script res : String) (stOut : ScriptState)
    (hrun : runScript timeout exec st script = (res, stOut))
    (hfreshF : mkstempPath st.counter ∉ st.fs.map Prod.fst)
    (hfreshT : mkstempPath st.counter ∉ st.temps) :
    (∀ rc out err, exec (mkstempPath st.counter) = .completed rc out err →
      rc = 0 →
        mkstempPath st.counter ∉ stOut.fs.map Prod.fst ∧
        mkstempPath st.counter ∉ stOut.temps) ∧
    (∀ rc out err, exec (mkstempPath st.counter) = .completed rc out err →
      rc ≠ 0 →
        (mkstempPath st.counter, script) ∈ stOut.fs ∧
        mkstempPath st.counter ∈ stOut.temps ∧
        List.IsInfix (mkstempPath st.counter).data res.data) ∧
    (exec (mkstempPath st.counter) = .timedOut →
        (mkstempPath st.counter, script) ∈ stOut.fs ∧
        mkstempPath st.counter ∈ stOut.temps ∧
        List.IsInfix (mkstempPath st.counter).data res.data) := by
  simp only [runScript] at hrun
  refine ⟨?_, ?_, ?_⟩
  · intro rc out err hexec hrc
    subst hrc
    rw [hexec] at hrun
    simp only [ne_eq, not_true_eq_false, if_false, Prod.mk.injEq] at hrun
    have hst := hrun.2
    rw [← hst]
    constructor
    · rw [List.eraseP_append_right _
        (by intro b hb hbe
            rw [beq_iff_eq] at hbe
            exact hfreshF (hbe ▸ List.mem_map_of_mem Prod.fst hb))]
      simp [hfreshF]
    · rw [List.erase_append_right _ hfreshT]
      simp [hfreshT]
  · intro rc out err hexec hrc
    rw [hexec] at hrun
    simp only [ne_eq, hrc, not_false_eq_true, if_true, Prod.mk.injEq] at hrun
    rcases hrun with ⟨h1, h2⟩
    refine ⟨?_, ?_, ?_⟩
    · rw [← h2]; simp
    · rw [← h2]; simp
    · rw [← h1]
      exact ⟨("ERROR in ").data, ("\n" ++ err).data, by
        simp [String.data_append, List.append_assoc]⟩
  · intro hexec
    rw [hexec] at hrun
    simp only [Prod.mk.injEq] at hrun
    rcases hrun with ⟨h1, h2⟩
    refine ⟨?_, ?_, ?_⟩
    · rw [← h2]; simp
    · rw [← h2]; simp
    · rw [← h1]
      exact ⟨("TIMEOUT in ").data,
        (" - exceeded " ++ toString timeout ++ "s").data, by
        simp [String.data_append, List.append_assoc]⟩

/-- Claim C5 witness: a failing run (exit code 7) from an empty state
retains the written script at the fresh path and reports the path. -/
theorem run_script_artifact_witness :
    ("/tmp/analysis_0.py", "print(1)") ∈
      (runScript 60 (fun _ => .completed 7 "out" "boom") ⟨0, [], []⟩
        "print(1)").2.fs ∧
    "/tmp/analysis_0.py" ∈
      (runScript 60 (fun _ => .completed 7 "out" "boom") ⟨0, [], []⟩
        "print(1)").2.temps := by
  have h := (run_script_artifact 60 (fun _ => .completed 7 "out" "boom")
    ⟨0, [], []⟩ "print(1)"
    (runScript 60 (fun _ => .completed 7 "out" "boom") ⟨0, [], []⟩ "print(1)").1
    (runScript 60 (fun _ => .completed 7 "out" "boom") ⟨0, [], []⟩ "print(1)").2
    rfl (by decide) (by decide)).2.1 7 "out" "boom" rfl (by decide)
  exact ⟨h.1, h.2.1⟩

/-- Claim C4 counterexample: a `run_script` invocation whose subprocess
exits with code 7, empty error stream and standard output `"out"` returns
`"ERROR in /tmp/analysis_0.py\n"`: the result contains neither the exit
status nor the standard-output fallback the claim requires. -/
theorem run_script_nonzero_counterexample :
    (runScript 60 (fun _ => .completed 7 "out" "") ⟨0, [], []⟩ "s").1 =
      "ERROR in /tmp/analysis_0.py\n" ∧
    ¬ List.IsInfix (toString (7 : Int)).data
        (runScript 60 (fun _ => .completed 7 "out" "") ⟨0, [], []⟩ "s").1.data ∧
    ¬ List.IsInfix "out".data
        (runScript 60 (fun _ => .completed 7 "out" "") ⟨0, [], []⟩ "s").1.data := by
  exact ⟨by decide, by decide, by decide⟩

/-- Claim C4 amended: on a non-zero exit status the `bash` tool returns
the exit status annotation with the error stream content (falling back to
standard output when the error stream is empty), but the subagent's
`run_script` returns `"ERROR in "` followed by the script path and the
error stream content verbatim: it contains no exit status and never falls
back to standard output. -/
theorem nonzero_exit_results (timeout : Nat) (rc : Int) (out err : String)
    (hrc : rc ≠ 0) :
    bashToolResult timeout (.completed rc out err) =
      "Command failed with exit code " ++ toString rc ++ "\nError: " ++
        (if err ≠ "" then err else out) ∧
    List.IsInfix (toString rc).data
      (bashToolResult timeout (.completed rc out err)).data ∧
    ∀ (exec : String → ExecOutcome) (st : ScriptState) (script : String),
      exec (mkstempPath st.counter) = .completed rc out err →
      (runScript timeout exec st script).1 =
        "ERROR in " ++ mkstempPath st.counter ++ "\n" ++ err := by
  have hb : bashToolResult timeout (.completed rc out err) =
      "Command failed with exit code " ++ toString rc ++ "\nError: " ++
        (if err ≠ "" then err else out) := by
    simp only [bashToolResult, ne_eq, hrc, not_false_eq_true, if_true]
  refine ⟨hb, ?_, ?_⟩
  · rw [hb]
    exact ⟨("Command failed with exit code ").data,
      ("\nError: " ++ (if err ≠ "" then err else out)).data, by
      simp [String.data_append, List.append_assoc]⟩
  · intro exec st script hexec
    simp only [runScript, hexec, ne_eq, hrc, not_false_eq_true, if_true]

/-- Claim C4 amended witness: the amended theorem applied at exit code 7,
stderr `"boom"`, stdout `"out"` with a concrete executor and state. -/
theorem nonzero_exit_results_witness :
    bashToolResult 30 (.completed 7 "out" "boom") =
      "Command failed with exit code 7\nError: boom" ∧
    (runScript 30 (fun _ => .completed 7 "out" "boom") ⟨0, [], []⟩ "s").1 =
      "ERROR in /tmp/analysis_0.py\nboom" := by
  have h := nonzero_exit_results 30 7 "out" "boom" (by decide)
  constructor
  · rw [h.1]; decide
  · rw [h.2.2 (fun _ => .completed 7 "out" "boom") ⟨0, [], []⟩ "s" rfl]
    decide

/-! ## Data-analysis pre-analysis
(src/agent/subagent/data_analysis.py, _analyze_dataframe)

A pandas dataframe is modeled as named columns of values.  After
`pd.read_csv`, text columns have dtype `object`; `_analyze_dataframe`
then runs `pd.to_datetime(df[col], errors="coerce")` over every
object-dtype column, which in pandas returns a `datetime64[ns]` series
regardless of the values: parseable values become timestamps and
unparseable ones become `NaT`.  The date grammar itself is the pandas
parser, an external collaborator, modeled as an oracle
`parse : String → Option Nat`.  With `errors="coerce"` the conversion
raises no `ValueError`/`TypeError` for string values, so the source's
`except` branch (annotated "Not a date column, keep as string") is
unreachable for loaded text columns. -/

inductive Column where
  | obj (vals : List String)
  | i64 (vals : List Int)
  | dt (vals : List (Option Nat))
deriving Repr, DecidableEq

abbrev DataFrame := List (String × Column)

/-- The `str(dtype)` rendering used to build the column-type map. -/
def dtypeStr : Column → String
  | .obj _ => "object"
  | .i64 _ => "int64"
  | .dt _ => "datetime64[ns]"

/-- The per-column loop of lines 168-173: every object-dtype column is
replaced by `pd.to_datetime(col, errors="coerce")`, a datetime64 column
whose unparseable entries are NaT (`none`). -/
def coerceDates (parse : String → Option Nat) (df : DataFrame) : DataFrame :=
  df.map fun p =>
    match p.2 with
    | .obj vals => (p.1, .dt (vals.map parse))
    | c => (p.1, c)

/-- The column-type map of line 176:
`\x7bcol: str(dtype) for col, dtype in df.dtypes.items()\x7d`. -/
def columnsMap (df : DataFrame) : List (String × String) :=
  df.map fun p => (p.1, dtypeStr p.2)

/-- Claim C6 evaluated at the failing input: pre-analysis of a frame with
an integer column, a cleanly parsing date column, and a text column whose
values are not dates maps the date column to a datetime kind as the claim
says, but also maps the non-date text column to `datetime64[ns]` (all
NaT) instead of keeping a string type. -/
theorem analyze_dataframe_coerces_non_date_text_columns :
    columnsMap (coerceDates
      (fun s => if s = "2021-01-01" then some 0
        else if s = "2021-01-02" then some 86400 else none)
      [("id", .i64 [1, 2]),
       ("date", .obj ["2021-01-01", "2021-01-02"]),
       ("name", .obj ["apple", "banana"])]) =
      [("id", "int64"),
       ("date", "datetime64[ns]"),
       ("name", "datetime64[ns]")] ∧
    coerceDates
      (fun s => if s = "2021-01-01" then some 0
        else if s = "2021-01-02" then some 86400 else none)
      [("name", .obj ["apple", "banana"])] =
      [("name", .dt [none, none])] := by
  exact ⟨by decide, by decide⟩

/-! ## Subagent delegation
(src/agent/subagent/data_analysis.py, _run_subagent)

`_run_subagent` pre-analyzes the file, builds the task prompt, then
unconditionally creates the subagent and iterates its stream; afterwards
it calls `_cleanup_temp_files()` (not in a `finally` block) and returns
the last message, or a sentinel when the stream produced no messages.
The stream is the external LLM loop: an oracle that either yields a
sequence of events (each carrying the message contents seen so far) or
raises.  The filesystem is the path-to-content list shared with the
script runner model, and `temps` is the `self._temp_files` tracking
list. -/

/-- Python `str.endswith`. -/
def pyEndsWith (s suffix : String) : Bool := suffix.data.isSuffixOf s.data

/-- The extension dispatch of lines 158-165. -/
inductive FileFormat where
  | csv
  | json
  | excel
deriving Repr, DecidableEq

def detectFormat (p : String) : Option FileFormat :=
  if pyEndsWith p ".csv" then some .csv
  else if pyEndsWith p ".json" then some .json
  else if pyEndsWith p ".xls" || pyEndsWith p ".xlsx" then some .excel
  else none

/-- `json.dumps` of the single-key error dict built by
`_analyze_dataframe` (default separators). -/
def dumpsError (msg : String) : String :=
  "\x7b\"error\": \"" ++ msg ++ "\"\x7d"

/-- `_analyze_dataframe`: dispatch on the extension, load via the pandas
readers (oracle `load`; a raised exception is the `.error` case, caught
by the outer `except` and dumped), coerce object columns, and render the
info JSON of the success case (shape/columns/optional sample) via the
external `json.dumps`, abstracted as `render` over the coerced frame. -/
def analyzeDataframe (load : FileFormat → String → Except String DataFrame)
    (render : DataFrame → String → Bool → String)
    (parse : String → Option Nat) (privacy : Bool) (path : String) : String :=
  match detectFormat path with
  | none => dumpsError ("Unsupported file type: " ++ path)
  | some fmt =>
    match load fmt path with
    | .error e => dumpsError e
    | .ok df => render (coerceDates parse df) path privacy

/-- The f-string of lines 199-204 (with its literal indentation). -/
def taskPrompt (dfInfo task : String) : String :=
  "DATAFRAME INFO:\n            " ++ dfInfo ++
    "\n\n            TASK:\n            " ++ task ++ "\n        "

/-- Outcome of iterating `subagent.stream(...)`: either the list of
streamed events (each event's message contents) or an exception. -/
inductive StreamBehavior where
  | yields (events : List (List String))
  | raises
deriving Repr, DecidableEq

/-- `_cleanup_temp_files` on the filesystem: unlink each tracked path
that exists (the tracking list itself is cleared by the caller model). -/
def cleanupTempFiles (temps : List String) (fs : List (String × String)) :
    List (String × String) :=
  temps.foldl (fun acc p => acc.eraseP (fun q => q.1 == p)) fs

structure DelegationResult where
  outcome : Except Unit String
  promptSent : String
  streamed : Bool
  cleanupRan : Bool
  tempsAfter : List String
  fsAfter : List (String × String)
deriving Repr

/-- `_run_subagent`: pre-analyze, build the prompt, create the subagent
and stream it (always); on a raised stream exception the error propagates
out of `_run_subagent` with no cleanup (there is no `try`/`finally`);
otherwise `_cleanup_temp_files()` runs and the last message (or the
no-message sentinel) is returned. -/
def runSubagent (analyze : String → String) (sb : StreamBehavior)
    (temps : List String) (fs : List (String × String))
    (path task : String) : DelegationResult :=
  let dfInfo := analyze path
  let prompt := taskPrompt dfInfo task
  match sb with
  | .raises =>
    { outcome := .error (), promptSent := prompt, streamed := true,
      cleanupRan := false, tempsAfter := temps, fsAfter := fs }
  | .yields events =>
    let result :=
      match events.getLast? with
      | some msgs =>
        match msgs.getLast? with
        | some m => m
        | none => "Subagent failed to produce a result"
      | none => "Subagent failed to produce a result"
    { outcome := .ok result, promptSent := prompt, streamed := true,
      cleanupRan := true, tempsAfter := [], fsAfter := cleanupTempFiles temps fs }

theorem cleanupTempFiles_sublist (temps : List String) :
    ∀ fs : List (String × String), List.Sublist (cleanupTempFiles temps fs) fs := by
  induction temps with
  | nil => intro fs; exact List.Sublist.refl _
  | cons t ts ih =>
    intro fs
    exact (ih (fs.eraseP (fun q => q.1 == t))).trans (List.eraseP_sublist fs)

theorem not_mem_keys_eraseP {p : String} :
    ∀ {fs : List (String × String)}, (fs.map Prod.fst).Nodup →
      p ∉ (fs.eraseP (fun q => q.1 == p)).map Prod.fst := by
  intro fs
  induction fs with
  | nil => intro _ h; cases h
  | cons kv fs ih =>
    intro hnd
    rw [List.map_cons, List.nodup_cons] at hnd
    by_cases hk : kv.1 == p
    · simp only [List.eraseP_cons, hk, cond_true]
      rw [beq_iff_eq] at hk
      exact fun hm => hnd.1 (hk ▸ hm)
    · have hkf : (kv.1 == p) = false := by
        rwa [Bool.not_eq_true] at hk
      simp only [List.eraseP_cons, hkf, cond_false]
      rw [List.map_cons]
      intro hm
      rcases List.mem_cons.mp hm with he | hm2
      · rw [beq_iff_eq] at hk
        exact hk (he ▸ rfl)
      · exact ih hnd.2 hm2

theorem not_mem_keys_cleanup {p : String} : ∀ {temps : List String}, p ∈ temps →
    ∀ fs : List (String × String), (fs.map Prod.fst).Nodup →
      p ∉ (cleanupTempFiles temps fs).map Prod.fst := by
  intro temps
  induction temps with
  | nil => intro hp; cases hp
  | cons t ts ih =>
    intro hp fs hnd
    have hstep : cleanupTempFiles (t :: ts) fs =
        cleanupTempFiles ts (fs.eraseP (fun q => q.1 == t)) := rfl
    rw [hstep]
    have hsubkeys : List.Sublist
        ((cleanupTempFiles ts (fs.eraseP (fun q => q.1 == t))).map Prod.fst)
        ((fs.eraseP (fun q => q.1 == t)).map Prod.fst) :=
      (cleanupTempFiles_sublist ts _).map Prod.fst
    rcases List.mem_cons.mp hp with he | hts
    · subst he
      exact fun hm => not_mem_keys_eraseP hnd (hsubkeys.subset hm)
    · have hnd2 : ((fs.eraseP (fun q => q.1 == t)).map Prod.fst).Nodup :=
        hnd.sublist ((List.eraseP_sublist fs).map Prod.fst)
      exact ih hts _ hnd2

/-- Claim C3 counterexample: with one tracked temp file still on disk, a
delegation whose subagent stream raises an exception leaves
`_run_subagent` without running cleanup: the tracking list and the file
both survive, contradicting cleanup on every exit path. -/
theorem run_subagent_cleanup_counterexample :
    (runSubagent (fun _ => "info") .raises ["/tmp/analysis_0.py"]
      [("/tmp/analysis_0.py", "x")] "d.csv" "t").cleanupRan = false ∧
    (runSubagent (fun _ => "info") .raises ["/tmp/analysis_0.py"]
      [("/tmp/analysis_0.py", "x")] "d.csv" "t").tempsAfter =
        ["/tmp/analysis_0.py"] ∧
    (runSubagent (fun _ => "info") .raises ["/tmp/analysis_0.py"]
      [("/tmp/analysis_0.py", "x")] "d.csv" "t").fsAfter =
        [("/tmp/analysis_0.py", "x")] := by
  exact ⟨rfl, rfl, rfl⟩

/-- Claim C3 amended: temp-file cleanup runs at the end of delegation on
every normal-return path of `_run_subagent` (the stream succeeded, with
or without messages): the tracking list is cleared and every tracked file
still on disk is removed.  When the stream raises, however, the exception
propagates and cleanup is skipped (the call is not in a `finally`
block). -/
theorem run_subagent_cleanup (analyze : String → String)
    (temps : List String) (fs : List (String × String)) (path task : String)
    (hnd : (fs.map Prod.fst).Nodup) :
    (∀ events,
      (runSubagent analyze (.yields events) temps fs path task).cleanupRan
          = true ∧
      (runSubagent analyze (.yields events) temps fs path task).tempsAfter
          = [] ∧
      ∀ p ∈ temps, p ∉
        ((runSubagent analyze (.yields events) temps fs path task).fsAfter).map
          Prod.fst) ∧
    (runSubagent analyze .raises temps fs path task).cleanupRan = false ∧
    (runSubagent analyze .raises temps fs path task).tempsAfter = temps ∧
    (runSubagent analyze .raises temps fs path task).fsAfter = fs := by
  refine ⟨fun events => ⟨rfl, rfl, fun p hp => ?_⟩, rfl, rfl, rfl⟩
  exact not_mem_keys_cleanup hp fs hnd

/-- Claim C3 amended witness: on a successful stream the tracked file is
unlinked and the tracking list cleared. -/
theorem run_subagent_cleanup_witness :
    (runSubagent (fun _ => "info") (.yields [["done"]]) ["/tmp/analysis_0.py"]
      [("/tmp/analysis_0.py", "x"), ("keep.csv", "d")] "d.csv" "t").tempsAfter
        = [] ∧
    "/tmp/analysis_0.py" ∉
      ((runSubagent (fun _ => "info") (.yields [["done"]])
        ["/tmp/analysis_0.py"] [("/tmp/analysis_0.py", "x"), ("keep.csv", "d")]
        "d.csv" "t").fsAfter).map Prod.fst := by
  have h := (run_subagent_cleanup (fun _ => "info") ["/tmp/analysis_0.py"]
    [("/tmp/analysis_0.py", "x"), ("keep.csv", "d")] "d.csv" "t"
    (by decide)).1 [["done"]]
  exact ⟨h.2.1, h.2.2 "/tmp/analysis_0.py" (by decide)⟩

/-- Claim C2 counterexample: delegating a task for the unsupported path
`"data.txt"` produces the structured pre-analysis error, yet the subagent
loop is still created and streamed: the delegator does not return before
streaming, contradicting the claim. -/
theorem unsupported_format_counterexample :
    analyzeDataframe (fun _ _ => .error "unreachable") (fun _ _ _ => "")
      (fun _ => none) false "data.txt" =
      "\x7b\"error\": \"Unsupported file type: data.txt\"\x7d" ∧
    (runSubagent (analyzeDataframe (fun _ _ => .error "unreachable")
        (fun _ _ _ => "") (fun _ => none) false) (.yields []) [] []
      "data.txt" "task").streamed = true := by
  exact ⟨by decide, rfl⟩

/-- Claim C2 amended: for a path whose extension is not one of
`.csv`/`.json`/`.xls`/`.xlsx`, pre-analysis yields the structured error
result immediately (no reader is invoked), and that error JSON is
embedded in the subagent's task prompt; but the delegator does not return
early: the subagent loop is created and streamed regardless. -/
theorem unsupported_format_behavior
    (load : FileFormat → String → Except String DataFrame)
    (render : DataFrame → String → Bool → String)
    (parse : String → Option Nat) (privacy : Bool)
    (sb : StreamBehavior) (temps : List String)
    (fs : List (String × String)) (path task : String)
    (h : detectFormat path = none) :
    analyzeDataframe load render parse privacy path =
      dumpsError ("Unsupported file type: " ++ path) ∧
    (runSubagent (analyzeDataframe load render parse privacy) sb temps fs
      path task).streamed = true ∧
    List.IsInfix (dumpsError ("Unsupported file type: " ++ path)).data
      (runSubagent (analyzeDataframe load render parse privacy) sb temps fs
        path task).promptSent.data := by
  have ha : analyzeDataframe load render parse privacy path =
      dumpsError ("Unsupported file type: " ++ path) := by
    simp only [analyzeDataframe, h]
  have hprompt : (runSubagent (analyzeDataframe load render parse privacy)
      sb temps fs path task).promptSent =
      taskPrompt (dumpsError ("Unsupported file type: " ++ path)) task := by
    cases sb <;> simp only [runSubagent, ha]
  have hstream : (runSubagent (analyzeDataframe load render parse privacy)
      sb temps fs path task).streamed = true := by
    cases sb <;> rfl
  refine ⟨ha, hstream, ?_⟩
  rw [hprompt]
  exact ⟨("DATAFRAME INFO:\n            ").data,
    ("\n\n            TASK:\n            " ++ task ++ "\n        ").data, by
    simp [taskPrompt, String.data_append, List.append_assoc]⟩

/-- Claim C2 amended witness: the amended theorem at the concrete
unsupported path `"data.txt"` with concrete oracles. -/
theorem unsupported_format_behavior_witness :
    analyzeDataframe (fun _ _ => .error "x") (fun _ _ _ => "")
      (fun _ => none) true "data.txt" =
      "\x7b\"error\": \"Unsupported file type: data.txt\"\x7d" ∧
    (runSubagent (analyzeDataframe (fun _ _ => .error "x") (fun _ _ _ => "")
        (fun _ => none) true) .raises [] [] "data.txt" "t").streamed = true := by
  have h := unsupported_format_behavior (fun _ _ => .error "x")
    (fun _ _ _ => "") (fun _ => none) true .raises [] [] "data.txt" "t"
    (by decide)
  exact ⟨h.1, h.2.1⟩

/-! ## Interrupt payload extraction (src/agent/graph.py, ReActAgent.run,
lines 146-162)

The suspension payload `first_interrupt.value` is an arbitrary Python
value, modeled by `PyVal`.  The source does

  command = "Unknown Command"
  try:
      action_requests = first_interrupt.value.get("action_requests", [])
      if action_requests:
          command = action_requests[0]["args"]["command"]
  except (KeyError, IndexError, AttributeError):
      pass

and then calls `self.callback.request_approval(command)`, continuing to
the decision step.  Note the caught tuple does not include `TypeError`,
which Python raises when subscripting a non-dict with a string key. -/

inductive PyVal where
  | pystr (s : String)
  | pyint (n : Int)
  | pylist (xs : List PyVal)
  | pydict (kvs : List (String × PyVal))
  | pynone
deriving Repr

inductive PyErr where
  | keyError
  | indexError
  | attributeError
  | typeError
deriving Repr, DecidableEq

/-- Python truthiness of the modeled values. -/
def pyTruthy : PyVal → Bool
  | .pystr s => s != ""
  | .pyint n => n != 0
  | .pylist xs => !xs.isEmpty
  | .pydict kvs => !kvs.isEmpty
  | .pynone => false

/-- `v.get(key, default)`: dict lookup with default; on a non-dict the
attribute `.get` does not exist, raising `AttributeError`. -/
def pyDictGet (v : PyVal) (key : String) (dflt : PyVal) : Except PyErr PyVal :=
  match v with
  | .pydict kvs => .ok ((kvs.lookup key).getD dflt)
  | _ => .error .attributeError

/-- `v[key]` with a string key: `KeyError` on a dict without the key,
`TypeError` on anything that is not a dict. -/
def pySubscriptStr (v : PyVal) (key : String) : Except PyErr PyVal :=
  match v with
  | .pydict kvs =>
    match kvs.lookup key with
    | some x => .ok x
    | none => .error .keyError
  | _ => .error .typeError

/-- `v[0]`: list indexing (`IndexError` when empty), string indexing
yields a one-character string, `0` is not a key of a string-keyed dict
(`KeyError`), and other values are not subscriptable (`TypeError`). -/
def pySubscriptZero (v : PyVal) : Except PyErr PyVal :=
  match v with
  | .pylist xs =>
    match xs.head? with
    | some x => .ok x
    | none => .error .indexError
  | .pystr s =>
    match s.data.head? with
    | some c => .ok (.pystr (String.mk [c]))
    | none => .error .indexError
  | .pydict _ => .error .keyError
  | _ => .error .typeError

/-- The `try` block body: extract
`value.get("action_requests", [])[0]["args"]["command"]` guarded by the
truthiness test, with `command` defaulting to `"Unknown Command"`. -/
def extractRaw (value : PyVal) : Except PyErr PyVal :=
  match pyDictGet value "action_requests" (.pylist []) with
  | .error e => .error e
  | .ok ar =>
    if pyTruthy ar then
      match pySubscriptZero ar with
      | .error e => .error e
      | .ok a0 =>
        match pySubscriptStr a0 "args" with
        | .error e => .error e
        | .ok args => pySubscriptStr args "command"
    else .ok (.pystr "Unknown Command")

/-- The whole extraction with the `except (KeyError, IndexError,
AttributeError)` handler: those three errors degrade to the default
label, `TypeError` propagates. -/
def extractCommand (value : PyVal) : Except PyErr PyVal :=
  match extractRaw value with
  | .ok c => .ok c
  | .error .keyError => .ok (.pystr "Unknown Command")
  | .error .indexError => .ok (.pystr "Unknown Command")
  | .error .attributeError => .ok (.pystr "Unknown Command")
  | .error .typeError => .error .typeError

/-- The continuation of `run`: when extraction does not raise, the label
is surfaced to `request_approval` and the loop proceeds to the decision
step; a raised error aborts `run`. -/
def decisionStep (value : PyVal) (approval : PyVal → Bool) : Except PyErr Bool :=
  match extractCommand value with
  | .ok c => .ok (approval c)
  | .error e => .error e

/-- A payload carries the expected structured fields: a dict whose
`"action_requests"` entry is a nonempty list headed by a dict whose
`"args"` entry is a dict containing `"command"`. -/
def wellFormedPayload (v : PyVal) : Bool :=
  match v with
  | .pydict kvs =>
    match kvs.lookup "action_requests" with
    | some (.pylist (.pydict akvs :: _)) =>
      match akvs.lookup "args" with
      | some (.pydict argkvs) => (argkvs.lookup "command").isSome
      | _ => false
    | _ => false
  | _ => false

/-- Claim C7 counterexample: the malformed payload whose action-request
entry is the bare string "oops" (not a dict) makes the extraction raise
`TypeError` — not caught by the handler — instead of degrading to the
safe default label, so `run` raises rather than reaching the decision
step. -/
theorem malformed_interrupt_counterexample :
    wellFormedPayload
      (.pydict [("action_requests", .pylist [.pystr "oops"])]) = false ∧
    extractCommand
      (.pydict [("action_requests", .pylist [.pystr "oops"])]) =
        .error .typeError ∧
    decisionStep
      (.pydict [("action_requests", .pylist [.pystr "oops"])])
      (fun _ => true) = .error .typeError := by
  exact ⟨rfl, rfl, rfl⟩

/-- Claim C7 amended: a suspension payload missing the expected
structured fields degrades to the safe default command label
`"Unknown Command"` surfaced to the approval callback, with the loop
continuing to the decision step, whenever the malformation raises
`KeyError`, `IndexError` or `AttributeError` (missing key, empty list,
non-dict payload); but a malformed payload whose failure is a `TypeError`
(a non-dict where a dict is subscripted with a string key) propagates out
of `run` instead. -/
theorem extract_command_malformed (v : PyVal) (approval : PyVal → Bool)
    (h : wellFormedPayload v = false) :
    (extractCommand v = .ok (.pystr "Unknown Command") ∧
     decisionStep v approval = .ok (approval (.pystr "Unknown Command"))) ∨
    (extractCommand v = .error .typeError ∧
     decisionStep v approval = .error .typeError) := by
  have hmain : extractCommand v = .ok (.pystr "Unknown Command") ∨
      extractCommand v = .error .typeError := by
    cases v with
    | pystr s => left; rfl
    | pyint n => left; rfl
    | pylist xs => left; rfl
    | pynone => left; rfl
    | pydict kvs =>
      rw [wellFormedPayload] at h
      cases hl : kvs.lookup "action_requests" with
      | none =>
        left
        simp [extractCommand, extractRaw, pyDictGet, hl, pyTruthy]
      | some ar =>
        rw [hl] at h
        cases ar with
        | pystr s =>
          obtain ⟨data⟩ := s
          cases data with
          | nil =>
            left
            simp [extractCommand, extractRaw, pyDictGet, hl, pyTruthy]
          | cons c cs =>
            right
            simp [extractCommand, extractRaw, pyDictGet, hl, pyTruthy,
              pySubscriptZero, pySubscriptStr, String.ext_iff]
        | pyint n =>
          by_cases hn : n = 0
          · subst hn
            left
            simp [extractCommand, extractRaw, pyDictGet, hl, pyTruthy]
          · right
            simp [extractCommand, extractRaw, pyDictGet, hl, pyTruthy, hn,
              pySubscriptZero]
        | pynone =>
          left
          simp [extractCommand, extractRaw, pyDictGet, hl, pyTruthy]
        | pydict akvs =>
          cases akvs with
          | nil =>
            left
            simp [extractCommand, extractRaw, pyDictGet, hl, pyTruthy]
          | cons kv rest =>
            left
            simp [extractCommand, extractRaw, pyDictGet, hl, pyTruthy,
              pySubscriptZero]
        | pylist xs =>
          cases xs with
          | nil =>
            left
            simp [extractCommand, extractRaw, pyDictGet, hl, pyTruthy]
          | cons a0 rest =>
            cases a0 with
            | pystr s =>
              right
              simp [extractCommand, extractRaw, pyDictGet, hl, pyTruthy,
                pySubscriptZero, pySubscriptStr]
            | pyint n =>
              right
              simp [extractCommand, extractRaw, pyDictGet, hl, pyTruthy,
                pySubscriptZero, pySubscriptStr]
            | pylist ys =>
              right
              simp [extractCommand, extractRaw, pyDictGet, hl, pyTruthy,
                pySubscriptZero, pySubscriptStr]
            | pynone =>
              right
              simp [extractCommand, extractRaw, pyDictGet, hl, pyTruthy,
                pySubscriptZero, pySubscriptStr]
            | pydict akvs =>
              cases ha : akvs.lookup "args" with
              | none =>
                left
                simp [extractCommand, extractRaw, pyDictGet, hl, pyTruthy,
                  pySubscriptZero, pySubscriptStr, ha]
              | some args =>
                cases args with
                | pystr s2 =>
                  right
                  simp [extractCommand, extractRaw, pyDictGet, hl, pyTruthy,
                    pySubscriptZero, pySubscriptStr, ha]
                | pyint n2 =>
                  right
                  simp [extractCommand, extractRaw, pyDictGet, hl, pyTruthy,
                    pySubscriptZero, pySubscriptStr, ha]
                | pylist ys2 =>
                  right
                  simp [extractCommand, extractRaw, pyDictGet, hl, pyTruthy,
                    pySubscriptZero, pySubscriptStr, ha]
                | pynone =>
                  right
                  simp [extractCommand, extractRaw, pyDictGet, hl, pyTruthy,
                    pySubscriptZero, pySubscriptStr, ha]
                | pydict argkvs =>
                  cases hc : argkvs.lookup "command" with
                  | none =>
                    left
                    simp [extractCommand, extractRaw, pyDictGet, hl, pyTruthy,
                      pySubscriptZero, pySubscriptStr, ha, hc]
                  | some c =>
                    exfalso
                    simp [ha, hc] at h
  rcases hmain with hm | hm
  · exact Or.inl ⟨hm, by simp [decisionStep, hm]⟩
  · exact Or.inr ⟨hm, by simp [decisionStep, hm]⟩

/-- Claim C7 amended witness: a payload that is a dict without the
`action_requests` key degrades to the default label and reaches the
decision step. -/
theorem extract_command_malformed_witness :
    wellFormedPayload (.pydict [("other", .pynone)]) = false ∧
    (extractCommand (.pydict [("other", .pynone)]) =
        .ok (.pystr "Unknown Command") ∨
      extractCommand (.pydict [("other", .pynone)]) = .error .typeError) := by
  have h := extract_command_malformed (.pydict [("other", .pynone)])
    (fun _ => false) rfl
  rcases h with hm | hm
  · exact ⟨rfl, Or.inl hm.1⟩
  · exact ⟨rfl, Or.inr hm.1⟩
